import Mathlib

/-!
Shallow embedding of the window-cleaner scheduling core of this repository
(src/optimiser.py).  Python floats are modelled as rationals, calendar dates
as integer day numbers, weekday names as an inductive type, and Python dicts
as structures.  External collaborators are passed as explicit parameters:
the geodesic distance function of geopy, the OR-tools routing solver (as the
successor assignment its solution encodes, or none when no feasible solution
is found), and the job-history datastore (as the per-customer list of up to
ten most recent actual durations, most recent first, that the limited query
returns).  The module-level LEARNING_ENABLED toggle is the `enabled` flag.
Customers are modelled with well-typed fields, so the except-branches that
drop customers whose stored date strings fail to parse are never taken.
-/

namespace WindowCleaner

/-- Python float truncation `int(x)`: rounding toward zero, computed on the
canonical numerator and denominator of the rational. -/
def truncQ (q : ℚ) : ℤ := q.num.tdiv q.den

/-- Floor of a rational, computed with floored integer division on the
canonical numerator and positive denominator. -/
def qfloor (q : ℚ) : ℤ := q.num.fdiv q.den

/-- Python `round` to zero decimal places on the idealised reals:
round half to even. -/
def roundHalfEven (q : ℚ) : ℤ :=
  let f := qfloor q
  let r := q - (f : ℚ)
  if r < 1/2 then f
  else if 1/2 < r then f + 1
  else if f % 2 = 0 then f else f + 1

/-- Python `round(x, n)` on the idealised reals. -/
def pyround (q : ℚ) (n : ℕ) : ℚ := (roundHalfEven (q * 10 ^ n) : ℚ) / 10 ^ n

/-- Python `statistics.median` on a nonempty list of integers: sort, then
take the middle element (odd length) or the mean of the two middle
elements (even length). -/
def pymedian (l : List ℤ) : ℚ :=
  let s := List.insertionSort (fun a b : ℤ => a ≤ b) l
  let n := s.length
  if n % 2 = 1 then (s.getD (n / 2) 0 : ℚ)
  else ((s.getD (n / 2 - 1) 0 : ℚ) + (s.getD (n / 2) 0 : ℚ)) / 2

/-- Weekday names, as produced by `strftime` and used as work-schedule keys. -/
inductive Weekday
  | monday | tuesday | wednesday | thursday | friday | saturday | sunday
deriving DecidableEq

/-- The weekday of the following calendar day. -/
def Weekday.nextDay : Weekday → Weekday
  | .monday => .tuesday
  | .tuesday => .wednesday
  | .wednesday => .thursday
  | .thursday => .friday
  | .friday => .saturday
  | .saturday => .sunday
  | .sunday => .monday

/-- The weekday `n` calendar days later. -/
def Weekday.addDays (w : Weekday) : ℕ → Weekday
  | 0 => w
  | n + 1 => w.nextDay.addDays n

/-- The capitalised English weekday name, as `strftime` with format `%A`
produces it for messages. -/
def Weekday.name : Weekday → String
  | .monday => "Monday"
  | .tuesday => "Tuesday"
  | .wednesday => "Wednesday"
  | .thursday => "Thursday"
  | .friday => "Friday"
  | .saturday => "Saturday"
  | .sunday => "Sunday"

/-- A customer record, with the fields the optimiser reads.  `last_cleaned`
is the stored service date as an integer day number, `duration_source` is
the optional annotation the learning stage writes. -/
structure Customer where
  id : ℕ
  name : String
  lat : ℚ
  lng : ℚ
  last_cleaned : ℤ
  frequency_days : ℤ
  estimated_duration : ℤ
  price : ℚ
  payment_method : Option String
  duration_source : Option String
deriving DecidableEq

/-- A customer annotated with the urgency fields that
filter_customers_by_urgency adds to its copy of the dict. -/
structure UCustomer extends Customer where
  days_since_cleaned : ℤ
  days_overdue : ℤ
  urgency_score : ℤ
  next_due_date : ℤ
deriving DecidableEq

/-- get_learned_duration from src/optimiser.py: the learning-rate cases over
the samples the job-history query returns (none: fallback; one: that sample;
two: `int` of their mean; three or more: `int` of the median).  A disabled
learning system returns the fallback before any lookup. -/
def get_learned_duration (enabled : Bool) (samples : List ℤ) (fallback : ℤ) : ℤ :=
  if !enabled then fallback
  else
    match samples with
    | [] => fallback
    | [d] => d
    | [a, b] => truncQ (((a : ℚ) + (b : ℚ)) / 2)
    | ds => truncQ (pymedian ds)

/-- enhance_customers_with_learning from src/optimiser.py: replace each
customer's estimated_duration with the learned duration and tag the source.
`history` is the job-history collaborator, keyed by customer id. -/
def enhance_customers_with_learning (enabled : Bool) (history : ℕ → List ℤ)
    (customers : List Customer) : List Customer :=
  if !enabled then customers
  else
    customers.map (fun customer =>
      let original_duration := customer.estimated_duration
      let learned_duration := get_learned_duration enabled (history customer.id) original_duration
      if learned_duration ≠ original_duration then
        { customer with estimated_duration := learned_duration,
                        duration_source := some "learned" }
      else
        { customer with estimated_duration := original_duration,
                        duration_source := some "estimated" })

/-- The urgency record filter_customers_by_urgency builds from one customer. -/
def mkUrgency (today : ℤ) (customer : Customer) : UCustomer :=
  { toCustomer := customer
    days_since_cleaned := today - customer.last_cleaned
    days_overdue := today - customer.last_cleaned - customer.frequency_days
    urgency_score := max 0 (today - customer.last_cleaned - customer.frequency_days)
    next_due_date := customer.last_cleaned + customer.frequency_days }

/-- The sort key `(-urgency_score, next_due_date)` of
filter_customers_by_urgency, as the total preorder a stable sort uses. -/
def urgencyLe (a b : UCustomer) : Prop :=
  b.urgency_score < a.urgency_score ∨
    (a.urgency_score = b.urgency_score ∧ a.next_due_date ≤ b.next_due_date)

instance : DecidableRel urgencyLe :=
  fun a b => decidable_of_iff
    (b.urgency_score < a.urgency_score ∨
      (a.urgency_score = b.urgency_score ∧ a.next_due_date ≤ b.next_due_date)) Iff.rfl

/-- filter_customers_by_urgency from src/optimiser.py: annotate every
customer with its urgency fields and sort stably by
`(-urgency_score, next_due_date)`. -/
def filter_customers_by_urgency (today : ℤ) (customers : List Customer) : List UCustomer :=
  List.insertionSort urgencyLe (customers.map (mkUrgency today))

/-- get_working_days from src/optimiser.py: keep only the weekdays whose
scheduled hours are present and strictly positive. -/
def get_working_days (work_schedule : Weekday → Option ℚ) : Weekday → Option ℚ :=
  fun day =>
    match work_schedule day with
    | some hours => if 0 < hours then some hours else none
    | none => none

/-- The greedy acceptance loop of assign_customers_to_day: walk the pool
with the running total of accepted minutes, accept a customer whose duration
still fits the budget, and stop outright once the running total has reached
ninety percent of the budget. -/
def assignGo (max_minutes : ℚ) : List UCustomer → ℚ → List UCustomer
  | [], _ => []
  | customer :: rest, total_minutes =>
    let duration := customer.estimated_duration
    if total_minutes + (duration : ℚ) ≤ max_minutes then
      if max_minutes * (9/10) ≤ total_minutes + (duration : ℚ) then [customer]
      else customer :: assignGo max_minutes rest (total_minutes + (duration : ℚ))
    else assignGo max_minutes rest total_minutes

/-- assign_customers_to_day from src/optimiser.py (the date argument is
unused there as well). -/
def assign_customers_to_day (customers : List UCustomer) (_date : ℤ)
    (max_hours : ℚ) : List UCustomer :=
  assignGo (max_hours * 60) customers 0

/-- A geographic coordinate pair. -/
abbrev Loc : Type := ℚ × ℚ

/-- The geodesic distance collaborator, in meters. -/
abbrev Dist : Type := Loc → Loc → ℚ

/-- The routing-solver collaborator: for a list of locations either no
feasible solution, or a solution given by its successor assignment on
routing indices, where indices `0 .. n-1` are the stops and `n` is the
vehicle end sentinel. -/
abbrev Solver : Type := List Loc → Option (ℕ → ℕ)

/-- The route-reading while loop of optimize_route: from the start index 0,
follow the successor assignment and record each index until the end
sentinel `n` is reached.  A feasible route ends within `n + 1` steps,
which bounds the fuel. -/
def routeWalk (next : ℕ → ℕ) (n : ℕ) : ℕ → ℕ → List ℕ
  | 0, _ => []
  | fuel + 1, idx => if idx = n then [] else idx :: routeWalk next n fuel (next idx)

/-- optimize_route from src/optimiser.py: the identity order for at most one
location; otherwise read the solver's solution, or return the empty list
when the solver finds none. -/
def optimize_route (solver : Solver) (locations : List Loc) : List ℕ :=
  let n := locations.length
  if n ≤ 1 then List.range n
  else
    match solver locations with
    | none => []
    | some next => routeWalk next n (n + 1) 0

/-- The per-day savings dict of calculate_time_savings.  The short-input
branch and the protected-day literal fill only part of the dict in the
source; the fields they leave out are modelled as 0. -/
structure TimeSavings where
  optimized_travel_time_minutes : ℚ
  unoptimized_travel_time_minutes : ℚ
  time_savings_minutes : ℚ
  time_savings_hours : ℚ
  fuel_savings_estimate_gbp : ℚ
  efficiency_improvement_percent : ℚ
  extra_customers_possible : ℤ
deriving DecidableEq

/-- The all-zero savings record. -/
def zeroSavings : TimeSavings := ⟨0, 0, 0, 0, 0, 0, 0⟩

/-- The consecutive-pairs distance sum of calculate_actual_travel_time,
with the source's index-validity guards. -/
def pairSum (dist : Dist) (locations : List Loc) : List ℕ → ℚ
  | [] => 0
  | [_] => 0
  | a :: b :: rest =>
    (if a < locations.length ∧ b < locations.length then
        dist (locations.getD a (0, 0)) (locations.getD b (0, 0))
      else 0)
      + pairSum dist locations (b :: rest)

/-- calculate_actual_travel_time from src/optimiser.py: sum the route's leg
distances, add the return trip home, convert with the 25 km/h urban speed
(1250/3 meters per minute), and add the two-minute per-stop buffer. -/
def calc_actual_travel_time (dist : Dist) (solver : Solver)
    (customers : List UCustomer) (start : Loc) (optimized : Bool) : ℚ :=
  if customers = [] then 0
  else
    let locations := start :: customers.map (fun c => (c.lat, c.lng))
    let route_order :=
      if optimized then optimize_route solver locations
      else List.range locations.length
    let leg_sum := pairSum dist locations route_order
    let return_dist :=
      if 1 < route_order.length then
        match route_order.getLast? with
        | some last_idx =>
          if last_idx < locations.length then dist (locations.getD last_idx (0, 0)) start
          else 0
        | none => 0
      else 0
    (leg_sum + return_dist) / (1250/3) + 2 * customers.length

/-- calculate_time_savings from src/optimiser.py: compare optimized and
input-order travel time; fewer than two customers yield the all-zero
record. -/
def calculate_time_savings (dist : Dist) (solver : Solver)
    (customers : List UCustomer) (start : Loc) : TimeSavings :=
  if customers.length < 2 then zeroSavings
  else
    let optimized_travel_time := calc_actual_travel_time dist solver customers start true
    let unoptimized_travel_time := calc_actual_travel_time dist solver customers start false
    let time_saved_minutes := unoptimized_travel_time - optimized_travel_time
    let fuel_savings := time_saved_minutes * (1/2)
    let efficiency_improvement := time_saved_minutes / max unoptimized_travel_time 1 * 100
    { optimized_travel_time_minutes := pyround optimized_travel_time 1
      unoptimized_travel_time_minutes := pyround unoptimized_travel_time 1
      time_savings_minutes := pyround time_saved_minutes 1
      time_savings_hours := pyround (time_saved_minutes / 60) 2
      fuel_savings_estimate_gbp := pyround fuel_savings 2
      efficiency_improvement_percent := pyround efficiency_improvement 1
      extra_customers_possible :=
        if 0 < time_saved_minutes then truncQ (time_saved_minutes / 45) else 0 }

/-- A customer as it appears inside a day's optimized route: the spread of
the customer dict with the route position and the defaulted payment method
written over it. -/
structure RouteCustomer where
  base : UCustomer
  route_order : ℕ
  payment_method : String
deriving DecidableEq

/-- The route-reading loop of optimize_daily_route over `route_order[1:]`:
indices shifted down by one past the start location, appended with their
one-based route position when in range, skipped otherwise. -/
def buildOptimizedCustomers (customers : List UCustomer) : List ℕ → ℕ → List RouteCustomer
  | [], _ => []
  | i :: rest, k =>
    if h : 1 ≤ i ∧ i - 1 < customers.length then
      { base := customers.get ⟨i - 1, h.2⟩
        route_order := k + 1
        payment_method := (customers.get ⟨i - 1, h.2⟩).payment_method.getD "card" }
        :: buildOptimizedCustomers customers rest (k + 1)
    else buildOptimizedCustomers customers rest k

/-- The per-day result dict of optimize_daily_route. -/
structure DailyRouteResult where
  customers : List RouteCustomer
  order : List ℕ
  total_duration : ℤ
  total_revenue : ℚ
  travel_time : ℚ
  time_savings : TimeSavings
deriving DecidableEq

/-- optimize_daily_route from src/optimiser.py. -/
def optimize_daily_route (dist : Dist) (solver : Solver)
    (customers : List UCustomer) (start : Loc) : DailyRouteResult :=
  if customers = [] then ⟨[], [], 0, 0, 0, zeroSavings⟩
  else
    let locations := start :: customers.map (fun c => (c.lat, c.lng))
    let route_order := optimize_route solver locations
    let optimized_customers := buildOptimizedCustomers customers (route_order.drop 1) 0
    { customers := optimized_customers
      order := route_order
      total_duration := (optimized_customers.map (fun rc => rc.base.estimated_duration)).sum
      total_revenue := (optimized_customers.map (fun rc => rc.base.price)).sum
      travel_time := pyround (calc_actual_travel_time dist solver customers start true) 1
      time_savings := calculate_time_savings dist solver customers start }

/-- One day's entry of the schedule dict.  The protected-day literal's two
extra keys are the `protectedDay` flag and the `message`; entries of active
days carry `false` and `none` there. -/
structure DayEntry where
  date : ℤ
  day : Weekday
  max_hours : ℚ
  customers : List RouteCustomer
  route_order : List ℕ
  total_duration_minutes : ℤ
  total_revenue : ℚ
  estimated_travel_time : ℚ
  time_savings : TimeSavings
  protectedDay : Bool
  message : Option String
deriving DecidableEq

/-- The message of a protected day's entry. -/
def protectedMessage (day : Weekday) : String :=
  "Protected - Cannot optimize " ++ day.name ++ " (too close to cleaner schedule)"

/-- The literal entry emitted for a protected day. -/
def protectedEntry (date : ℤ) (day : Weekday) : DayEntry :=
  { date := date, day := day, max_hours := 0, customers := [], route_order := []
    total_duration_minutes := 0, total_revenue := 0, estimated_travel_time := 0
    time_savings := zeroSavings, protectedDay := true
    message := some (protectedMessage day) }

/-- The mutable state of the eight-day loop of create_2_week_schedule: the
schedule built so far (a Python dict in date insertion order), the two
accumulated savings totals, and the remaining customer pool. -/
structure SchedState where
  schedule : List (ℤ × DayEntry)
  total_time_saved : ℚ
  total_fuel_saved : ℚ
  pool : List UCustomer

/-- One iteration of the eight-day loop of create_2_week_schedule, for day
offset `i`: emit a protected entry and keep the pool when near-date
protection applies; do nothing at all when the weekday has no positive
working hours; otherwise pack customers, and when some were packed, emit the
optimized entry, accumulate the savings and remove the packed customers from
the pool. -/
def scheduleStep (dist : Dist) (solver : Solver) (today : ℤ) (todayWd : Weekday)
    (working_days : Weekday → Option ℚ) (start : Loc) (protect_near_dates : Bool)
    (st : SchedState) (i : ℕ) : SchedState :=
  let current_date := today + (i : ℤ)
  let day_name := todayWd.addDays i
  if protect_near_dates = true ∧ i < 2 then
    { st with schedule := st.schedule ++ [(current_date, protectedEntry current_date day_name)] }
  else
    match working_days day_name with
    | none => st
    | some max_hours =>
      let daily_customers := assign_customers_to_day st.pool current_date max_hours
      if daily_customers = [] then st
      else
        let optimized_route := optimize_daily_route dist solver daily_customers start
        let entry : DayEntry :=
          { date := current_date, day := day_name, max_hours := max_hours
            customers := optimized_route.customers
            route_order := optimized_route.order
            total_duration_minutes := optimized_route.total_duration
            total_revenue := optimized_route.total_revenue
            estimated_travel_time := optimized_route.travel_time
            time_savings := optimized_route.time_savings
            protectedDay := false, message := none }
        let assigned_ids := daily_customers.map (fun c => c.id)
        { schedule := st.schedule ++ [(current_date, entry)]
          total_time_saved := st.total_time_saved + optimized_route.time_savings.time_savings_minutes
          total_fuel_saved := st.total_fuel_saved + optimized_route.time_savings.fuel_savings_estimate_gbp
          pool := st.pool.filter (fun c => decide (c.id ∉ assigned_ids)) }

/-- The summary dict of create_schedule_summary. -/
structure ScheduleSummary where
  total_customers_scheduled : ℕ
  total_revenue : ℚ
  total_work_hours : ℚ
  working_days : ℕ
  average_customers_per_day : ℚ
  average_revenue_per_day : ℚ
deriving DecidableEq

/-- create_schedule_summary from src/optimiser.py. -/
def create_schedule_summary (schedule : List (ℤ × DayEntry)) : ScheduleSummary :=
  let total_customers := (schedule.map (fun p => p.2.customers.length)).sum
  let total_revenue := (schedule.map (fun p => p.2.total_revenue)).sum
  let total_work_hours := (schedule.map (fun p => (p.2.total_duration_minutes : ℚ) / 60)).sum
  let working_days := schedule.length
  { total_customers_scheduled := total_customers
    total_revenue := total_revenue
    total_work_hours := pyround total_work_hours 1
    working_days := working_days
    average_customers_per_day := pyround ((total_customers : ℚ) / max (working_days : ℚ) 1) 1
    average_revenue_per_day := pyround (total_revenue / max (working_days : ℚ) 1) 2 }

/-- The time_savings_summary dict of create_2_week_schedule.  The
weekly_efficiency_gain percentage is modelled as the number inside the
formatted string, with the empty-schedule branch's string as 0. -/
structure SavingsSummary where
  total_time_saved_minutes : ℚ
  total_time_saved_hours : ℚ
  total_fuel_saved_gbp : ℚ
  extra_customers_per_week : ℤ
  weekly_efficiency_gain : ℚ
deriving DecidableEq

/-- The machine_learning dict of create_2_week_schedule, without the
accuracy statistics that get_learning_stats reads from the external
datastore. -/
structure MachineLearningInfo where
  learning_enabled : Bool
  customers_with_learned_data : ℕ
  total_customers : ℕ
  learning_coverage_percent : ℚ
deriving DecidableEq

/-- The full return value of create_2_week_schedule. -/
structure ScheduleResult where
  schedule : List (ℤ × DayEntry)
  summary : ScheduleSummary
  time_savings_summary : SavingsSummary
  unscheduled_customers : List UCustomer
  machine_learning : MachineLearningInfo
deriving DecidableEq

/-- create_2_week_schedule from src/optimiser.py, over the eight-day
horizon starting today.  When the built schedule is nonempty while its days
hold zero customers in total (protected entries only), the
weekly_efficiency_gain expression divides by zero and the Python function
raises ZeroDivisionError; that abort is modelled as `none`. -/
def create_2_week_schedule (enabled : Bool) (history : ℕ → List ℤ) (dist : Dist)
    (solver : Solver) (today : ℤ) (todayWd : Weekday) (customers : List Customer)
    (work_schedule : Weekday → Option ℚ) (start : Loc)
    (protect_near_dates : Bool) : Option ScheduleResult :=
  let enhanced_customers := enhance_customers_with_learning enabled history customers
  let working_days := get_working_days work_schedule
  let pool0 := filter_customers_by_urgency today enhanced_customers
  let final := (List.range 8).foldl
    (scheduleStep dist solver today todayWd working_days start protect_near_dates)
    ⟨[], 0, 0, pool0⟩
  let scheduled_customer_count := (final.schedule.map (fun p => p.2.customers.length)).sum
  let learned_count := (enhanced_customers.filter
    (fun c => c.duration_source = some "learned")).length
  if final.schedule ≠ [] ∧ scheduled_customer_count = 0 then none
  else
    some
      { schedule := final.schedule
        summary := create_schedule_summary final.schedule
        time_savings_summary :=
          { total_time_saved_minutes := pyround final.total_time_saved 1
            total_time_saved_hours := pyround (final.total_time_saved / 60) 2
            total_fuel_saved_gbp := pyround final.total_fuel_saved 2
            extra_customers_per_week :=
              if 0 < final.total_time_saved then truncQ (final.total_time_saved / 45) else 0
            weekly_efficiency_gain :=
              if final.schedule ≠ [] then
                pyround (final.total_time_saved / ((scheduled_customer_count : ℚ) * 45) * 100) 1
              else 0 }
        unscheduled_customers := final.pool
        machine_learning :=
          { learning_enabled := enabled
            customers_with_learned_data := learned_count
            total_customers := customers.length
            learning_coverage_percent :=
              if customers ≠ [] then
                pyround (((learned_count : ℚ) / (customers.length : ℚ)) * 100) 1
              else 0 } }

/-- Two schedule entries whose customer lists share no customer id. -/
def entriesIdDisjoint (a b : ℤ × DayEntry) : Prop :=
  ∀ x ∈ a.2.customers, ∀ y ∈ b.2.customers, x.base.id ≠ y.base.id

/-- The loop invariant of the eight-day loop: entries built so far are
pairwise id-disjoint, and every id already placed in an entry is gone from
the remaining pool. -/
def SchedInv (st : SchedState) : Prop :=
  st.schedule.Pairwise entriesIdDisjoint
  ∧ ∀ e ∈ st.schedule, ∀ x ∈ e.2.customers, ∀ c ∈ st.pool, x.base.id ≠ c.id

/-- Statement helper: every produced schedule has pairwise id-disjoint
customer lists across its day entries. -/
def pairwiseDisjointIds : Option ScheduleResult → Prop
  | none => True
  | some r => r.schedule.Pairwise entriesIdDisjoint

/-- Statement helper: the run completed and produced a schedule dict with no
entry at the given date. -/
def scheduleOmitsDate (o : Option ScheduleResult) (d : ℤ) : Bool :=
  match o with
  | none => false
  | some r => r.schedule.all (fun p => p.1 != d)

/-- Statement helper for the frame property of the learning stage: the two
customers agree on every field other than estimated_duration and
duration_source. -/
def agreesExceptDuration (a b : Customer) : Prop :=
  a.id = b.id ∧ a.name = b.name ∧ a.lat = b.lat ∧ a.lng = b.lng ∧
    a.last_cleaned = b.last_cleaned ∧ a.frequency_days = b.frequency_days ∧
    a.price = b.price ∧ a.payment_method = b.payment_method

/-- Test fixture: a customer with the given id and estimated duration. -/
def fixCustomer (id : ℕ) (dur : ℤ) : Customer :=
  ⟨id, "c", 0, 0, 0, 14, dur, 20, none, none⟩

/-- Test fixture: an urgency record around `fixCustomer`, with zeroed
derived fields. -/
def fixU (id : ℕ) (dur : ℤ) : UCustomer := ⟨fixCustomer id dur, 0, 0, 0, 0⟩

/-- Test fixture: a customer whose stored last-service date (day 5) lies
after day 0. -/
def futureCustomer : Customer := ⟨1, "f", 0, 0, 5, 14, 30, 20, none, none⟩

/-- Test fixture: the everywhere-zero distance collaborator. -/
def dist0 : Dist := fun _ _ => 0

/-- Test fixture: a solver whose solution is the identity order
(successor assignment `i + 1`). -/
def solverSucc : Solver := fun _ => some (fun i => i + 1)

/-- Test fixture: a work schedule with eight hours on Mondays and nothing
on the other days. -/
def wsMonday : Weekday → Option ℚ := fun d =>
  match d with
  | .monday => some 8
  | _ => none

/-! ### Lemmas about the daily capacity packer -/

theorem assignGo_sum_le (m : ℚ) :
    ∀ (l : List UCustomer) (total : ℚ), total ≤ m →
      ((assignGo m l total).map (fun c => (c.estimated_duration : ℚ))).sum + total ≤ m
  | [], total, h => by simpa [assignGo] using h
  | c :: rest, total, h => by
    by_cases h1 : total + (c.estimated_duration : ℚ) ≤ m
    · by_cases h2 : m * (9/10) ≤ total + (c.estimated_duration : ℚ)
      · simp only [assignGo, if_pos h1, if_pos h2, List.map_cons, List.map_nil,
          List.sum_cons, List.sum_nil]
        linarith
      · have ih := assignGo_sum_le m rest (total + (c.estimated_duration : ℚ)) h1
        simp only [assignGo, if_pos h1, if_neg h2, List.map_cons, List.sum_cons]
        linarith
    · have ih := assignGo_sum_le m rest total h
      simp only [assignGo, if_neg h1]
      exact ih

theorem assignGo_cutoff (m : ℚ) :
    ∀ (l : List UCustomer) (total : ℚ) (k : ℕ), total < m * (9/10) →
      m * (9/10) ≤ total +
        (((assignGo m l total).take k).map (fun c => (c.estimated_duration : ℚ))).sum →
      (assignGo m l total).length ≤ k
  | [], total, k, _, _ => by simp [assignGo]
  | c :: rest, total, k, hlt, hreach => by
    by_cases h1 : total + (c.estimated_duration : ℚ) ≤ m
    · by_cases h2 : m * (9/10) ≤ total + (c.estimated_duration : ℚ)
      · cases k with
        | zero =>
          exfalso
          simp only [assignGo, if_pos h1, if_pos h2, List.take_zero, List.map_nil,
            List.sum_nil, add_zero] at hreach
          linarith
        | succ k' =>
          simp only [assignGo, if_pos h1, if_pos h2, List.length_cons, List.length_nil]
          omega
      · cases k with
        | zero =>
          exfalso
          simp only [List.take_zero, List.map_nil, List.sum_nil, add_zero] at hreach
          linarith
        | succ k' =>
          have hlt' : total + (c.estimated_duration : ℚ) < m * (9/10) := not_le.mp h2
          simp only [assignGo, if_pos h1, if_neg h2, List.take_succ_cons, List.map_cons,
            List.sum_cons, List.length_cons] at hreach ⊢
          have ih := assignGo_cutoff m rest (total + (c.estimated_duration : ℚ)) k' hlt'
            (by linarith)
          omega
    · simp only [assignGo, if_neg h1] at hreach ⊢
      exact assignGo_cutoff m rest total k hlt hreach

/-- Claim C3: for every urgency-sorted pool and every (nonnegative)
available-hours value, the subset assign_customers_to_day selects has summed
estimatedduration at most `available_hours * 60`; and in the concrete
scenario of three 200-minute customers on an 8-hour day exactly the first
two (400 minutes) are assigned, not three. -/
theorem C3_packer_never_exceeds_budget :
    (∀ (pool : List UCustomer) (date : ℤ) (max_hours : ℚ), 0 ≤ max_hours →
        ((assign_customers_to_day pool date max_hours).map
            (fun c => (c.estimated_duration : ℚ))).sum ≤ max_hours * 60)
  ∧ assign_customers_to_day [fixU 1 200, fixU 2 200, fixU 3 200] 0 8
      = [fixU 1 200, fixU 2 200]
  ∧ ((assign_customers_to_day [fixU 1 200, fixU 2 200, fixU 3 200] 0 8).map
        (fun c => (c.estimated_duration : ℚ))).sum = 400 := by
  refine ⟨?_, ?_, ?_⟩
  · intro pool date max_hours h
    have h60 : (0 : ℚ) ≤ max_hours * 60 := by positivity
    have hs := assignGo_sum_le (max_hours * 60) pool 0 h60
    simp only [assign_customers_to_day, add_zero] at hs ⊢
    exact hs
  · norm_num [assign_customers_to_day, assignGo, fixU, fixCustomer]
  · norm_num [assign_customers_to_day, assignGo, fixU, fixCustomer]

theorem C3_witness :
    (0 : ℚ) ≤ 8 ∧
      ((assign_customers_to_day [fixU 1 200, fixU 2 200, fixU 3 200] 0 8).map
          (fun c => (c.estimated_duration : ℚ))).sum ≤ 8 * 60 :=
  ⟨by norm_num,
    C3_packer_never_exceeds_budget.1 [fixU 1 200, fixU 2 200, fixU 3 200] 0 8 (by norm_num)⟩

/-- Claim C8: for every pool and positive available-hours value, once the
running total of accepted durations has reached ninety percent of the
minute budget, no further customer is accepted: whenever the durations of
the first `k` selected customers already sum to at least `0.9 *
(available_hours * 60)`, the selection has at most `k` customers. -/
theorem C8_ninety_percent_cutoff (pool : List UCustomer) (date : ℤ) (max_hours : ℚ)
    (hpos : 0 < max_hours) (k : ℕ)
    (hreach : max_hours * 60 * (9/10) ≤
      (((assign_customers_to_day pool date max_hours).take k).map
          (fun c => (c.estimated_duration : ℚ))).sum) :
    (assign_customers_to_day pool date max_hours).length ≤ k := by
  simp only [assign_customers_to_day] at hreach ⊢
  have h0 : (0 : ℚ) < max_hours * 60 * (9/10) := by positivity
  exact assignGo_cutoff (max_hours * 60) pool 0 k (by linarith) (by rw [zero_add]; exact hreach)

theorem C8_witness :
    (0 : ℚ) < 8 ∧ (assign_customers_to_day [fixU 1 450] 0 8).length ≤ 1 :=
  ⟨by norm_num,
    C8_ninety_percent_cutoff [fixU 1 450] 0 8 (by norm_num) 1
      (by norm_num [assign_customers_to_day, assignGo, fixU, fixCustomer])⟩

/-! ### Claims C5, C4, C10 -/

/-- Claim C5 counterexample: with exactly two samples 36 and 25 the
estimator returns 30, the truncation of their mean, and not the arithmetic
mean 61/2 the claim asserts. -/
theorem C5_counterexample :
    get_learned_duration true [36, 25] 30 = 30 ∧
      ((get_learned_duration true [36, 25] 30 : ℚ) ≠ ((36 : ℚ) + 25) / 2) := by
  have h : get_learned_duration true [36, 25] 30 = 30 := by
    norm_num [get_learned_duration, truncQ]
    decide
  refine ⟨h, ?_⟩
  rw [h]; norm_num

/-- Claim C5 as amended: the estimator returns the fallback when learning
is disabled or no samples exist, the sample itself for one sample, the
integer truncation of the arithmetic mean for two samples (exact on the
claim's example 25, 35), and the integer truncation of the median of the
sample window for three or more samples (exact on the claim's example
20, 25, 100, 22, 24, giving 24). -/
theorem C5_amended_estimator (fallback a b d : ℤ) (l : List ℤ) (h3 : 3 ≤ l.length) :
    get_learned_duration false l fallback = fallback
  ∧ get_learned_duration true [] fallback = fallback
  ∧ get_learned_duration true [d] fallback = d
  ∧ get_learned_duration true [a, b] fallback = truncQ (((a : ℚ) + (b : ℚ)) / 2)
  ∧ get_learned_duration true l fallback = truncQ (pymedian l)
  ∧ get_learned_duration true [25, 35] 30 = 30
  ∧ get_learned_duration true [20, 25, 100, 22, 24] 30 = 24 := by
  refine ⟨rfl, rfl, rfl, rfl, ?_, ?_, ?_⟩
  · match l, h3 with
    | a :: b :: c :: rest, _ => rfl
  · norm_num [get_learned_duration, truncQ]
  · norm_num [get_learned_duration, truncQ, pymedian, List.insertionSort, List.orderedInsert]

theorem C5_estimator_witness :
    3 ≤ ([3, 1, 2] : List ℤ).length ∧
      get_learned_duration true [3, 1, 2] 7 = truncQ (pymedian [3, 1, 2]) :=
  ⟨by norm_num, (C5_amended_estimator 7 0 0 0 [3, 1, 2] (by norm_num)).2.2.2.2.1⟩

/-- Claim C4 counterexample: a customer whose stored last-service date
(day 5) lies after today (day 0) is not rejected with a validation error;
filter_customers_by_urgency returns normally, keeping the customer with a
negative days_since_cleaned and an urgency score silently clamped to 0. -/
theorem C4_counterexample :
    filter_customers_by_urgency 0 [futureCustomer] =
      [{ toCustomer := futureCustomer, days_since_cleaned := -5, days_overdue := -19,
         urgency_score := 0, next_due_date := 19 }] := by
  norm_num [filter_customers_by_urgency, List.insertionSort, mkUrgency, futureCustomer]

/-- Claim C4 as amended: a customer whose last-service date lies after
today is processed without any error: its days_since_cleaned is negative,
its urgency score is clamped to 0 by the max, and it remains in the sorted
pool. -/
theorem C4_amended_no_validation_error (today : ℤ) (c : Customer) (cs : List Customer)
    (hmem : c ∈ cs) (hfuture : today < c.last_cleaned) (hfreq : 0 < c.frequency_days) :
    mkUrgency today c ∈ filter_customers_by_urgency today cs
  ∧ (mkUrgency today c).days_since_cleaned < 0
  ∧ (mkUrgency today c).urgency_score = 0 := by
  refine ⟨?_, ?_, ?_⟩
  · unfold filter_customers_by_urgency
    exact (List.perm_insertionSort urgencyLe _).mem_iff.mpr (List.mem_map_of_mem _ hmem)
  · simp only [mkUrgency]
    omega
  · simp only [mkUrgency]
    exact max_eq_left (by omega)

theorem C4_witness :
    mkUrgency 0 futureCustomer ∈ filter_customers_by_urgency 0 [futureCustomer]
  ∧ (mkUrgency 0 futureCustomer).days_since_cleaned < 0
  ∧ (mkUrgency 0 futureCustomer).urgency_score = 0 :=
  C4_amended_no_validation_error 0 futureCustomer [futureCustomer] (by simp)
    (by norm_num [futureCustomer]) (by norm_num [futureCustomer])

/-- Claim C10: the learning stage returns a list of the same length with
customers in the same order, each agreeing with its input on every field
except possibly estimated_duration and duration_source; with learning
disabled it returns the input list unchanged. -/
theorem C10_learning_frame (history : ℕ → List ℤ) (customers : List Customer) :
    enhance_customers_with_learning false history customers = customers
  ∧ (∀ e : Bool, (enhance_customers_with_learning e history customers).length
      = customers.length)
  ∧ List.Forall₂ agreesExceptDuration
      (enhance_customers_with_learning true history customers) customers := by
  refine ⟨rfl, ?_, ?_⟩
  · intro e
    cases e
    · rfl
    · simp [enhance_customers_with_learning]
  · show List.Forall₂ agreesExceptDuration (customers.map _) customers
    rw [List.forall₂_map_left_iff]
    refine List.forall₂_same.mpr (fun c _ => ?_)
    dsimp only
    split <;> exact ⟨rfl, rfl, rfl, rfl, rfl, rfl, rfl, rfl⟩

/-! ### Travel-time lemmas and claim C9 -/

theorem pairSum_nonneg (dist : Dist) (locations : List Loc)
    (hd : ∀ p q, 0 ≤ dist p q) :
    ∀ ro : List ℕ, 0 ≤ pairSum dist locations ro
  | [] => le_refl 0
  | [_] => le_refl 0
  | a :: b :: rest => by
    have ih := pairSum_nonneg dist locations hd (b :: rest)
    have h1 : (0 : ℚ) ≤ if a < locations.length ∧ b < locations.length then
        dist (locations.getD a (0, 0)) (locations.getD b (0, 0)) else 0 := by
      split
      · exact hd _ _
      · exact le_refl 0
    simp only [pairSum]
    linarith

theorem calc_actual_ge_buffer (dist : Dist) (solver : Solver) (customers : List UCustomer)
    (start : Loc) (b : Bool) (hd : ∀ p q, 0 ≤ dist p q) (hne : customers ≠ []) :
    2 * (customers.length : ℚ) ≤ calc_actual_travel_time dist solver customers start b := by
  unfold calc_actual_travel_time
  rw [if_neg hne]
  dsimp only
  refine le_add_of_nonneg_left (div_nonneg (add_nonneg (pairSum_nonneg dist _ hd _) ?_)
    (by norm_num))
  repeat' split
  all_goals first
  | exact hd _ _
  | exact le_refl (0 : ℚ)

/-- Claim C9: for at least two customers the unoptimized travel time is
strictly positive (it includes the two-minute per-stop buffer), the
division guard `max unoptimized 1` is the identity there, and the
efficiency-improvement percentage equals
`time_saved / unoptimized_travel_time * 100` (rounded to one decimal), a
finite rational; the guarded division can never divide by zero. -/
theorem C9_efficiency_division_guarded (dist : Dist) (solver : Solver)
    (customers : List UCustomer) (start : Loc)
    (hlen : 2 ≤ customers.length) (hd : ∀ p q, 0 ≤ dist p q) :
    0 < calc_actual_travel_time dist solver customers start false
  ∧ max (calc_actual_travel_time dist solver customers start false) 1
      = calc_actual_travel_time dist solver customers start false
  ∧ (calculate_time_savings dist solver customers start).efficiency_improvement_percent
      = pyround ((calc_actual_travel_time dist solver customers start false
            - calc_actual_travel_time dist solver customers start true)
          / calc_actual_travel_time dist solver customers start false * 100) 1 := by
  have hne : customers ≠ [] := by
    intro h
    rw [h] at hlen
    simp at hlen
  have hbuf := calc_actual_ge_buffer dist solver customers start false hd hne
  have hlen' : (2 : ℚ) ≤ (customers.length : ℚ) := by exact_mod_cast hlen
  have hpos : 0 < calc_actual_travel_time dist solver customers start false := by linarith
  have hmax : max (calc_actual_travel_time dist solver customers start false) 1
      = calc_actual_travel_time dist solver customers start false :=
    max_eq_left (by linarith)
  refine ⟨hpos, hmax, ?_⟩
  unfold calculate_time_savings
  rw [if_neg (by omega : ¬ customers.length < 2)]
  dsimp only
  rw [hmax]

theorem C9_witness :
    0 < calc_actual_travel_time dist0 (fun _ => none) [fixU 1 30, fixU 2 30] (0, 0) false
  ∧ (calculate_time_savings dist0 (fun _ => none)
        [fixU 1 30, fixU 2 30] (0, 0)).efficiency_improvement_percent
      = pyround ((calc_actual_travel_time dist0 (fun _ => none)
              [fixU 1 30, fixU 2 30] (0, 0) false
            - calc_actual_travel_time dist0 (fun _ => none)
              [fixU 1 30, fixU 2 30] (0, 0) true)
          / calc_actual_travel_time dist0 (fun _ => none)
              [fixU 1 30, fixU 2 30] (0, 0) false * 100) 1 :=
  ⟨(C9_efficiency_division_guarded dist0 (fun _ => none) [fixU 1 30, fixU 2 30] (0, 0)
      (by norm_num) (fun p q => le_refl 0)).1,
    (C9_efficiency_division_guarded dist0 (fun _ => none) [fixU 1 30, fixU 2 30] (0, 0)
      (by norm_num) (fun p q => le_refl 0)).2.2⟩

/-! ### Route-walk lemmas and claim C1 -/

theorem routeWalk_shape (next : ℕ → ℕ) (n : ℕ) :
    ∀ (fuel idx : ℕ), ∃ K, K ≤ fuel ∧
      routeWalk next n fuel idx = (List.range K).map (fun k => next^[k] idx)
      ∧ ∀ k, k < K → next^[k] idx ≠ n := by
  intro fuel
  induction fuel with
  | zero =>
    intro idx
    exact ⟨0, le_refl 0, by simp [routeWalk], by omega⟩
  | succ f ih =>
    intro idx
    by_cases hidx : idx = n
    · refine ⟨0, Nat.zero_le _, ?_, by omega⟩
      simp [routeWalk, hidx]
    · obtain ⟨K, hK, heq, hne⟩ := ih (next idx)
      refine ⟨K + 1, by omega, ?_, ?_⟩
      · rw [show routeWalk next n (f + 1) idx
            = if idx = n then [] else idx :: routeWalk next n f (next idx) from rfl]
        rw [if_neg hidx, heq, List.range_succ_eq_map, List.map_cons, List.map_map]
        simp only [Function.iterate_zero_apply, List.cons.injEq, true_and]
        refine List.map_congr_left (fun k _ => ?_)
        simp [Function.comp_def, Function.iterate_succ_apply]
      · intro k hk
        cases k with
        | zero => simpa using hidx
        | succ k' =>
          rw [Function.iterate_succ_apply]
          exact hne k' (by omega)

theorem chainLt (next : ℕ → ℕ) (n : ℕ)
    (hR : ∀ i, i < n → 1 ≤ next i ∧ next i ≤ n) (hn : 0 < n) (K : ℕ)
    (hfree : ∀ k, k < K → next^[k] 0 ≠ n) :
    ∀ k, k < K → next^[k] 0 < n := by
  intro k
  induction k with
  | zero =>
    intro _
    simpa using hn
  | succ k' ih =>
    intro hk
    have h1 : next^[k'] 0 < n := ih (by omega)
    have h2 := hR _ h1
    have h3 := hfree _ hk
    rw [Function.iterate_succ_apply'] at h3 ⊢
    omega

theorem chainInj (next : ℕ → ℕ) (n : ℕ)
    (hR : ∀ i, i < n → 1 ≤ next i ∧ next i ≤ n)
    (hInj : ∀ i j, i < n → j < n → next i = next j → i = j)
    (hn : 0 < n) (K : ℕ) (hfree : ∀ k, k < K → next^[k] 0 ≠ n) :
    ∀ i j, i < K → j < K → next^[i] 0 = next^[j] 0 → i = j := by
  have hlt := chainLt next n hR hn K hfree
  intro i
  induction i with
  | zero =>
    intro j hi hj heq
    cases j with
    | zero => rfl
    | succ j' =>
      exfalso
      rw [Function.iterate_succ_apply'] at heq
      have h1 := hR _ (hlt j' (by omega))
      simp only [Function.iterate_zero_apply] at heq
      omega
  | succ i' ih =>
    intro j hi hj heq
    cases j with
    | zero =>
      exfalso
      rw [Function.iterate_succ_apply'] at heq
      have h1 := hR _ (hlt i' (by omega))
      simp only [Function.iterate_zero_apply] at heq
      omega
    | succ j' =>
      rw [Function.iterate_succ_apply', Function.iterate_succ_apply'] at heq
      have heq' := hInj _ _ (hlt i' (by omega)) (hlt j' (by omega)) heq
      exact congrArg Nat.succ (ih j' (by omega) (by omega) heq')

/-- Claim C1 as amended: optimize_route returns the identity order for at
most one location; when the solver finds no feasible solution it returns
the empty list (it does not raise, but it does not return the input order
either); when the solver returns a successor assignment that maps each
stop index below `n` into the non-start indices `1 .. n` injectively (as
every feasible routing solution does), the returned order has no duplicate
indices, mentions only indices below `n`, and starts at the depot index 0.
Completeness of the order additionally rests on the solver's
subtour-elimination guarantee, which is external to this code. -/
theorem C1_route_sequencer (solver : Solver) (locations : List Loc) :
    (locations.length ≤ 1 → optimize_route solver locations = List.range locations.length)
  ∧ (solver locations = none → 2 ≤ locations.length →
      optimize_route solver locations = [])
  ∧ (∀ next, solver locations = some next → 2 ≤ locations.length →
      (∀ i, i < locations.length → 1 ≤ next i ∧ next i ≤ locations.length) →
      (∀ i j, i < locations.length → j < locations.length → next i = next j → i = j) →
      (optimize_route solver locations).Nodup
      ∧ (∀ m ∈ optimize_route solver locations, m < locations.length)
      ∧ (optimize_route solver locations).head? = some 0) := by
  refine ⟨?_, ?_, ?_⟩
  · intro h
    simp only [optimize_route]
    rw [if_pos h]
  · intro hs h
    simp only [optimize_route]
    rw [if_neg (by omega), hs]
  · intro next hs hlen2 hR hInj
    have hwalk : optimize_route solver locations
        = routeWalk next locations.length (locations.length + 1) 0 := by
      simp only [optimize_route]
      rw [if_neg (by omega), hs]
    obtain ⟨K, hK, heq, hfree⟩ :=
      routeWalk_shape next locations.length (locations.length + 1) 0
    have hn : 0 < locations.length := by omega
    have hlt := chainLt next locations.length hR hn K hfree
    have hinj := chainInj next locations.length hR hInj hn K hfree
    refine ⟨?_, ?_, ?_⟩
    · rw [hwalk, heq]
      exact List.Nodup.map_on
        (fun x hx y hy hxy => hinj x y (List.mem_range.mp hx) (List.mem_range.mp hy) hxy)
        (List.nodup_range K)
    · intro m hm
      rw [hwalk, heq] at hm
      obtain ⟨k, hk, rfl⟩ := List.mem_map.mp hm
      exact hlt k (List.mem_range.mp hk)
    · rw [hwalk]
      rw [show routeWalk next locations.length (locations.length + 1) 0
          = if 0 = locations.length then []
            else 0 :: routeWalk next locations.length locations.length (next 0) from rfl]
      rw [if_neg (by omega)]
      rfl

/-- Claim C1 counterexample: with two locations and a solver that finds no
feasible solution, optimize_route returns the empty list, which is neither
the input order `[0, 1]` nor any permutation of the two stop indices. -/
theorem C1_counterexample :
    optimize_route (fun _ => none) [((0:ℚ), (0:ℚ)), ((1:ℚ), (1:ℚ))] = []
  ∧ optimize_route (fun _ => none) [((0:ℚ), (0:ℚ)), ((1:ℚ), (1:ℚ))] ≠ List.range 2
  ∧ ¬ (optimize_route (fun _ => none) [((0:ℚ), (0:ℚ)), ((1:ℚ), (1:ℚ))]).Perm
      (List.range 2) := by
  have h0 : optimize_route (fun _ => none) [((0:ℚ), (0:ℚ)), ((1:ℚ), (1:ℚ))] = [] := rfl
  refine ⟨h0, by rw [h0]; decide, by rw [h0]; decide⟩

theorem C1_witness :
    (optimize_route solverSucc [((0:ℚ), (0:ℚ)), ((1:ℚ), (1:ℚ))]).Nodup
  ∧ (optimize_route solverSucc [((0:ℚ), (0:ℚ)), ((1:ℚ), (1:ℚ))]).head? = some 0
  ∧ optimize_route solverSucc [((3:ℚ), (3:ℚ))] = List.range 1 := by
  have h := (C1_route_sequencer solverSucc [((0:ℚ), (0:ℚ)), ((1:ℚ), (1:ℚ))]).2.2
    (fun i => i + 1) rfl (by norm_num)
    (by intro i hi; dsimp only; simp only [List.length_cons, List.length_nil] at hi ⊢; omega)
    (by intro i j hi hj hij; dsimp only at hij; omega)
  exact ⟨h.1, h.2.2, (C1_route_sequencer solverSucc [((3:ℚ), (3:ℚ))]).1 (by norm_num)⟩

/-! ### Schedule-builder lemmas and claims C6, C7, C2 -/

theorem assignGo_mem (m : ℚ) :
    ∀ (l : List UCustomer) (total : ℚ), ∀ c ∈ assignGo m l total, c ∈ l
  | [], total, c, hc => by simp [assignGo] at hc
  | d :: rest, total, c, hc => by
    by_cases h1 : total + (d.estimated_duration : ℚ) ≤ m
    · by_cases h2 : m * (9/10) ≤ total + (d.estimated_duration : ℚ)
      · simp only [assignGo, if_pos h1, if_pos h2, List.mem_singleton] at hc
        simp [hc]
      · simp only [assignGo, if_pos h1, if_neg h2, List.mem_cons] at hc
        rcases hc with rfl | hc
        · exact List.mem_cons_self _ _
        · exact List.mem_cons_of_mem _ (assignGo_mem m rest _ c hc)
    · simp only [assignGo, if_neg h1] at hc
      exact List.mem_cons_of_mem _ (assignGo_mem m rest total c hc)

theorem buildOpt_base_mem (customers : List UCustomer) :
    ∀ (idxs : List ℕ) (k : ℕ), ∀ rc ∈ buildOptimizedCustomers customers idxs k,
      rc.base ∈ customers
  | [], _, rc, h => by simp [buildOptimizedCustomers] at h
  | i :: rest, k, rc, h => by
    by_cases hc : 1 ≤ i ∧ i - 1 < customers.length
    · rw [buildOptimizedCustomers, dif_pos hc] at h
      rcases List.mem_cons.mp h with rfl | h'
      · exact List.get_mem _ _ _
      · exact buildOpt_base_mem customers rest (k + 1) rc h'
    · rw [buildOptimizedCustomers, dif_neg hc] at h
      exact buildOpt_base_mem customers rest k rc h

theorem odr_customers_base_mem (dist : Dist) (solver : Solver) (cs : List UCustomer)
    (start : Loc) :
    ∀ rc ∈ (optimize_daily_route dist solver cs start).customers, rc.base ∈ cs := by
  intro rc h
  by_cases hcs : cs = []
  · simp [optimize_daily_route, hcs] at h
  · simp only [optimize_daily_route, if_neg hcs] at h
    exact buildOpt_base_mem cs _ 0 rc h

theorem scheduleStep_inv (dist : Dist) (solver : Solver) (today : ℤ) (todayWd : Weekday)
    (working : Weekday → Option ℚ) (start : Loc) (protect : Bool)
    (st : SchedState) (i : ℕ) (h : SchedInv st) :
    SchedInv (scheduleStep dist solver today todayWd working start protect st i) := by
  simp only [scheduleStep]
  by_cases hp : protect = true ∧ i < 2
  · rw [if_pos hp]
    constructor
    · rw [List.pairwise_append]
      refine ⟨h.1, by simp, ?_⟩
      intro a ha b hb
      simp only [List.mem_singleton] at hb
      subst hb
      intro x hx y hy
      simp [protectedEntry] at hy
    · intro e he x hx c hc
      rcases List.mem_append.mp he with he | he
      · exact h.2 e he x hx c hc
      · simp only [List.mem_singleton] at he
        subst he
        simp [protectedEntry] at hx
  · rw [if_neg hp]
    cases hw : working (todayWd.addDays i) with
    | none => exact h
    | some max_hours =>
      dsimp only
      by_cases hd : assign_customers_to_day st.pool (today + (i : ℤ)) max_hours = []
      · rw [if_pos hd]
        exact h
      · rw [if_neg hd]
        have hsub : ∀ c ∈ assign_customers_to_day st.pool (today + (i : ℤ)) max_hours,
            c ∈ st.pool := by
          intro c hc
          simp only [assign_customers_to_day] at hc
          exact assignGo_mem _ _ _ c hc
        have hbase := odr_customers_base_mem dist solver
          (assign_customers_to_day st.pool (today + (i : ℤ)) max_hours) start
        constructor
        · rw [List.pairwise_append]
          refine ⟨h.1, by simp, ?_⟩
          intro a ha b hb
          simp only [List.mem_singleton] at hb
          subst hb
          intro x hx y hy
          exact h.2 a ha x hx y.base (hsub _ (hbase y hy))
        · intro e he x hx c hc
          have hc' : c ∈ st.pool ∧
              c.id ∉ (assign_customers_to_day st.pool (today + (i : ℤ)) max_hours).map
                (fun c => c.id) := by
            have := List.mem_filter.mp hc
            exact ⟨this.1, by simpa using this.2⟩
          rcases List.mem_append.mp he with he | he
          · exact h.2 e he x hx c hc'.1
          · simp only [List.mem_singleton] at he
            subst he
            intro heq
            exact hc'.2 (heq ▸ List.mem_map_of_mem _ (hbase x hx))

theorem foldl_schedInv (dist : Dist) (solver : Solver) (today : ℤ) (todayWd : Weekday)
    (working : Weekday → Option ℚ) (start : Loc) (protect : Bool) :
    ∀ (l : List ℕ) (st : SchedState), SchedInv st →
      SchedInv (l.foldl (scheduleStep dist solver today todayWd working start protect) st)
  | [], _, h => h
  | i :: rest, st, h =>
    foldl_schedInv dist solver today todayWd working start protect rest _
      (scheduleStep_inv dist solver today todayWd working start protect st i h)

/-- Claim C6: in every ScheduleResult that create_2_week_schedule produces,
no customer id appears in the customers list of more than one day's entry:
the day entries are pairwise id-disjoint (this holds even without assuming
the input ids distinct, because a day's packed ids are all removed from the
pool before the next day is processed). -/
theorem C6_customer_at_most_once (enabled : Bool) (history : ℕ → List ℤ) (dist : Dist)
    (solver : Solver) (today : ℤ) (todayWd : Weekday) (customers : List Customer)
    (work_schedule : Weekday → Option ℚ) (start : Loc) (protect : Bool) :
    pairwiseDisjointIds (create_2_week_schedule enabled history dist solver today todayWd
      customers work_schedule start protect) := by
  unfold create_2_week_schedule
  dsimp only
  split
  · exact trivial
  · exact (foldl_schedInv dist solver today todayWd (get_working_days work_schedule) start
      protect (List.range 8)
      ⟨[], 0, 0, filter_customers_by_urgency today
        (enhance_customers_with_learning enabled history customers)⟩
      ⟨List.Pairwise.nil, by simp⟩).1

/-- Claim C7: two runs of the full pipeline with identical customers, work
schedule, start location, protection flag, historical data, solver,
distance function and the same today produce identical ScheduleResults. -/
theorem C7_pipeline_deterministic (e1 e2 : Bool) (h1 h2 : ℕ → List ℤ) (d1 d2 : Dist)
    (s1 s2 : Solver) (t1 t2 : ℤ) (w1 w2 : Weekday) (cs1 cs2 : List Customer)
    (ws1 ws2 : Weekday → Option ℚ) (st1 st2 : Loc) (p1 p2 : Bool)
    (he : e1 = e2) (hh : h1 = h2) (hd : d1 = d2) (hs : s1 = s2) (ht : t1 = t2)
    (hw : w1 = w2) (hc : cs1 = cs2) (hws : ws1 = ws2) (hst : st1 = st2) (hp : p1 = p2) :
    create_2_week_schedule e1 h1 d1 s1 t1 w1 cs1 ws1 st1 p1
      = create_2_week_schedule e2 h2 d2 s2 t2 w2 cs2 ws2 st2 p2 := by
  subst he hh hd hs ht hw hc hws hst hp
  rfl

theorem C7_witness :
    create_2_week_schedule false (fun _ => []) dist0 solverSucc 0 .monday
        [fixCustomer 1 30] wsMonday (0, 0) true
      = create_2_week_schedule false (fun _ => []) dist0 solverSucc 0 .monday
        [fixCustomer 1 30] wsMonday (0, 0) true :=
  C7_pipeline_deterministic _ _ _ _ _ _ _ _ _ _ _ _ _ _ _ _ _ _ _ _
    rfl rfl rfl rfl rfl rfl rfl rfl rfl rfl

/-- Claim C2 as amended: protected days emit an entry with an empty
customer list and an explanatory message while the pool is untouched; but a
horizon day whose weekday has no positive working hours produces no entry
at all in create_2_week_schedule — the step leaves the state unchanged
(pool included) rather than emitting an empty explanatory entry as
generate_full_schedule in src/scheduler.py does. -/
theorem C2_protected_vs_nocapacity (dist : Dist) (solver : Solver) (today : ℤ)
    (todayWd : Weekday) (working : Weekday → Option ℚ) (start : Loc) :
    (∀ (i : ℕ) (st : SchedState), i < 2 →
        scheduleStep dist solver today todayWd working start true st i
          = { st with schedule := st.schedule ++
              [(today + (i : ℤ), protectedEntry (today + (i : ℤ)) (todayWd.addDays i))] })
  ∧ (∀ (d : ℤ) (w : Weekday), (protectedEntry d w).customers = []
      ∧ (protectedEntry d w).message = some (protectedMessage w))
  ∧ (∀ (protect : Bool) (i : ℕ) (st : SchedState), ¬(protect = true ∧ i < 2) →
      working (todayWd.addDays i) = none →
      scheduleStep dist solver today todayWd working start protect st i = st) := by
  refine ⟨?_, fun d w => ⟨rfl, rfl⟩, ?_⟩
  · intro i st hi
    simp only [scheduleStep]
    rw [if_pos ⟨trivial, hi⟩]
  · intro protect i st hnp hw
    simp only [scheduleStep]
    rw [if_neg hnp, hw]

theorem C2_witness :
    scheduleStep dist0 solverSucc 0 .monday (get_working_days wsMonday) (0, 0) true
        ⟨[], 0, 0, []⟩ 0
      = ⟨[((0 : ℤ), protectedEntry 0 .monday)], 0, 0, []⟩
  ∧ scheduleStep dist0 solverSucc 0 .monday (get_working_days wsMonday) (0, 0) false
        ⟨[], 0, 0, []⟩ 2
      = ⟨[], 0, 0, []⟩ :=
  ⟨(C2_protected_vs_nocapacity dist0 solverSucc 0 .monday
      (get_working_days wsMonday) (0, 0)).1 0 ⟨[], 0, 0, []⟩ (by omega),
    (C2_protected_vs_nocapacity dist0 solverSucc 0 .monday
      (get_working_days wsMonday) (0, 0)).2.2 false 2 ⟨[], 0, 0, []⟩ (by simp) rfl⟩

/-- Claim C2 counterexample: with a single customer, eight Monday hours and
no other working day, the produced schedule contains no entry at all for
the no-capacity day `today + 1` (a Tuesday inside the horizon): the run
completes, yet the date is absent instead of carrying an empty
explanatory entry. -/
theorem C2_counterexample :
    scheduleOmitsDate
      (create_2_week_schedule false (fun _ => []) dist0 solverSucc 0 .monday
        [fixCustomer 1 30] wsMonday (0, 0) false) 1 = true := by
  norm_num [create_2_week_schedule, enhance_customers_with_learning,
    filter_customers_by_urgency, List.insertionSort, List.orderedInsert, mkUrgency,
    fixCustomer, get_working_days, wsMonday, scheduleStep, Weekday.addDays,
    Weekday.nextDay, assign_customers_to_day, assignGo, optimize_daily_route,
    optimize_route, routeWalk, buildOptimizedCustomers, solverSucc, dist0,
    scheduleOmitsDate, List.range_succ]

end WindowCleaner
